import Mathlib

/-!
# Verification of the MAPI client core (`src/pymonetdb/mapi.py`)

This file is a shallow embedding of the MAPI low-level connection module:
block framing (`_putblock_inet` / `_getblock_inet`), exact socket reads
(`_getbytes`), the error map (`handle_error`), response classification
(`read_response`), command dispatch (`cmd`), the login redirect loop
(`_login`) and the challenge/response handshake (`_challenge_response`).

Modelling conventions:

* Byte strings are `List Nat` (each element a byte value).  The module is
  written in the Python-2 string idiom (it imports `six`, guards on `PY3`,
  and uses the Python-2 `raise (Class, arg)` statement form and `e.message`);
  we embed the Python-2 semantics, under which `str` and `bytes` coincide,
  so the error-code table and byte responses live in one string type.
* The socket is a `Sock`: a byte stream plus a schedule of read sizes, so a
  single `recv` may deliver any positive number of bytes up to the requested
  count.  An empty delivery models the peer closing the connection.
* Loops are embedded as fuel recursion so every definition is executable by
  the kernel; each top-level wrapper passes fuel that provably dominates the
  loop's iteration count, and fuel exhaustion is a distinguished error kind
  that the wrappers never reach.
* `hashlib` and `snappy` are external libraries, not part of this
  repository; they enter the model as parameters (`HashLib`, `Codec`).
  A `Codec` used in a concrete statement must satisfy the library contract
  `uncompress (compress b) = b`.
-/

set_option maxRecDepth 4000

/-- UTF-8 encoding of a single code point (as `str.encode('utf-8')` does). -/
def utf8Bytes (c : Nat) : List Nat :=
  if c < 0x80 then [c]
  else if c < 0x800 then [0xC0 + c / 64, 0x80 + c % 64]
  else if c < 0x10000 then [0xE0 + c / 4096, 0x80 + c / 64 % 64, 0x80 + c % 64]
  else [0xF0 + c / 262144, 0x80 + c / 4096 % 64, 0x80 + c / 64 % 64, 0x80 + c % 64]

/-- The bytes of a Lean string literal, UTF-8 encoded. -/
def bts (s : String) : List Nat :=
  (s.data.map (fun c => utf8Bytes c.toNat)).flatten

/-- The exception classes that the module raises (`pymonetdb.exceptions`
plus the Python built-ins that its statements can produce). -/
inductive ErrKind
  /-- `OperationalError` -/
  | operationalE
  /-- `DatabaseError` -/
  | databaseE
  /-- `ProgrammingError` -/
  | programmingE
  /-- `NotSupportedError` -/
  | notSupportedE
  /-- `IntegrityError` -/
  | integrityE
  /-- Python `ValueError` (failed tuple unpacking, `struct.pack` overflow) -/
  | valueErrorE
  /-- Python `IndexError` (missing challenge field) -/
  | indexErrorE
  /-- model artifact: loop fuel exhausted (unreachable from the wrappers) -/
  | fuelE
deriving DecidableEq, Repr

/-- A raised Python exception: its class and its `args` tuple. -/
structure PyErr where
  kind : ErrKind
  args : List (List Nat)
deriving DecidableEq, Repr

def STATE_INIT : Nat := 0
def STATE_READY : Nat := 1

/-- `class Protocol` -/
inductive Protocol
  | prot9
  | prot10
deriving DecidableEq, Repr

/-- `class Compression` -/
inductive Compression
  | none
  | snappy
  | lz4
deriving DecidableEq, Repr

/-- `class Endianness` -/
inductive Endianness
  | little
  | big
deriving DecidableEq, Repr

def MAX_PACKAGE_LENGTH : Nat := 1024 * 8 - 2

/-- The MonetDB error-code table `errors` (key, exception class). -/
def errors : List (List Nat × ErrKind) :=
  [ (bts "42S02!", ErrKind.operationalE),
    (bts "M0M29!", ErrKind.integrityE),
    (bts "2D000!", ErrKind.integrityE),
    (bts "40000!", ErrKind.integrityE) ]

/-- `handle_error(error)`: exception class and formatted message for a
server error string. -/
def handle_error (error : List Nat) : ErrKind × List Nat :=
  if 6 < error.length then
    match errors.lookup (error.take 6) with
    | some exc => (exc, error.drop 6)
    | none => (ErrKind.operationalE, error)
  else
    (ErrKind.operationalE, error)

/-! ## Socket model -/

/-- The read side of a socket: the byte stream the peer will deliver, plus a
schedule of delivery sizes (each entry bounds how many bytes the next `recv`
yields, modelling short reads; an exhausted schedule delivers fully). -/
structure Sock where
  sched : List Nat
  data : List Nat
deriving DecidableEq, Repr

/-- `socket.recv(count)`: deliver up to `count` bytes; an empty result means
the peer has closed. -/
def recv (s : Sock) (count : Nat) : List Nat × Sock :=
  match s.sched with
  | [] => (s.data.take count, ⟨[], s.data.drop count⟩)
  | k :: rest =>
    let m := min k count
    (s.data.take m, ⟨rest, s.data.drop m⟩)

/-- Loop body of `_getbytes`: read until `count` bytes are gathered, raising
`OperationalError("Server closed connection")` on an empty delivery.  Fuel
recursion; the wrapper passes `fuel = count`, which suffices because every
successful delivery is nonempty. -/
def getbytesAux : Nat → Sock → Nat → Except PyErr (List Nat × Sock)
  | _, s, 0 => .ok ([], s)
  | 0, _, _ + 1 => .error ⟨.fuelE, []⟩
  | fuel + 1, s, count + 1 =>
    let (r, s1) := recv s (count + 1)
    if r.length = 0 then
      .error ⟨.operationalE, [bts "Server closed connection"]⟩
    else
      match getbytesAux fuel s1 (count + 1 - r.length) with
      | .ok (more, s2) => .ok (r ++ more, s2)
      | .error e => .error e

/-- `_getbytes(bytes_)`: read exactly `count` bytes from the socket. -/
def _getbytes (s : Sock) (count : Nat) : Except PyErr (List Nat × Sock) :=
  getbytesAux count s count

/-! ## Header packing -/

/-- Little-endian encoding of `v` on `n` bytes. -/
def toLE : Nat → Nat → List Nat
  | 0, _ => []
  | n + 1, v => v % 256 :: toLE n (v / 256)

/-- Little-endian decoding of a byte list. -/
def fromLE (l : List Nat) : Nat :=
  l.foldr (fun b acc => b + 256 * acc) 0

/-- `struct.pack('<H', v)`: 2 bytes, raising `struct.error` (a `ValueError`
in the model) when the value does not fit. -/
def pack16 (v : Nat) : Except PyErr (List Nat) :=
  if v < 65536 then .ok (toLE 2 v) else .error ⟨.valueErrorE, []⟩

/-- `struct.pack('<q', v)` for the nonnegative values the module produces. -/
def pack64 (v : Nat) : Except PyErr (List Nat) :=
  if v < 2 ^ 63 then .ok (toLE 8 v) else .error ⟨.valueErrorE, []⟩

/-- Header width per protocol (2 bytes for v9, 8 for v10). -/
def headerSize : Protocol → Nat
  | .prot9 => 2
  | .prot10 => 8

/-- Pack a header value with the protocol's width. -/
def packHeader : Protocol → Nat → Except PyErr (List Nat)
  | .prot9, v => pack16 v
  | .prot10, v => pack64 v

/-- Unpack a header: `struct.unpack('<H', _)` (unsigned) for v9,
`struct.unpack('<q', _)` (signed) for v10; then `length = v >> 1`,
`last = v & 1` with Python's floor shift and nonnegative mod. -/
def unpackHeader : Protocol → List Nat → Int × Nat
  | .prot9, flag =>
    let v := fromLE flag
    ((v / 2 : Nat), v % 2)
  | .prot10, flag =>
    let u := fromLE flag
    let i : Int := if u < 2 ^ 63 then (u : Int) else (u : Int) - 2 ^ 64
    (Int.fdiv i 2, (Int.emod i 2).toNat)

/-- The external compression library (`snappy.compress` /
`snappy.uncompress`).  The library contract is `uncompress (compress b) = b`. -/
structure Codec where
  compress : List Nat → List Nat
  uncompress : List Nat → List Nat

/-! ## Block framing -/

/-- Loop body of `_getblock_inet`: read a header, read the payload when its
length is positive, decompress under Snappy, and continue until a header
with the last bit set.  Fuel recursion; every iteration consumes at least
the header bytes, so `data.length + 1` fuel suffices. -/
def getblockInetAux : Nat → Protocol → Compression → Codec → Sock →
    Except PyErr (List Nat × Sock)
  | 0, _, _, _, _ => .error ⟨.fuelE, []⟩
  | fuel + 1, prot, comp, codec, s =>
    match _getbytes s (headerSize prot) with
    | .error e => .error e
    | .ok (flag, s1) =>
      let (length, last) := unpackHeader prot flag
      let chunkRead : Except PyErr (List Nat × Sock) :=
        if 0 < length then
          match _getbytes s1 length.toNat with
          | .error e => .error e
          | .ok (block, s2) =>
            .ok ((if comp = Compression.snappy then codec.uncompress block
                  else block), s2)
        else
          .ok ([], s1)
      match chunkRead with
      | .error e => .error e
      | .ok (chunk, s2) =>
        if last = 1 then
          .ok (chunk, s2)
        else
          match getblockInetAux fuel prot comp codec s2 with
          | .error e => .error e
          | .ok (more, s3) => .ok (chunk ++ more, s3)

/-- `_getblock_inet()`: read one MAPI-framed message. -/
def _getblock_inet (prot : Protocol) (comp : Compression) (codec : Codec)
    (s : Sock) : Except PyErr (List Nat × Sock) :=
  getblockInetAux (s.data.length + 1) prot comp codec s

/-- Loop body of `_putblock_inet`, recorded as the chunk sequence
`(length, last, data-as-sent)`.  Mirrors the source exactly: the slice is
taken at `pos`, compression is applied, `last` is set from the
*post-compression* length, and `pos` advances by that same length.  Fuel
recursion; under no compression `block.length + 2` fuel suffices. -/
def putblockInetAux : Nat → Compression → Codec → List Nat → Nat →
    Option (List (Nat × Nat × List Nat))
  | 0, _, _, _, _ => none
  | fuel + 1, comp, codec, block, pos =>
    let data0 := (block.drop pos).take MAX_PACKAGE_LENGTH
    let data := if comp = Compression.snappy then codec.compress data0 else data0
    let length := data.length
    let last := if length < MAX_PACKAGE_LENGTH then 1 else 0
    if last = 1 then
      some [(length, last, data)]
    else
      match putblockInetAux fuel comp codec block (pos + length) with
      | some rest => some ((length, last, data) :: rest)
      | none => none

/-- The chunk sequence `_putblock_inet(block)` emits. -/
def putblockChunks (comp : Compression) (codec : Codec) (block : List Nat) :
    Option (List (Nat × Nat × List Nat)) :=
  putblockInetAux (block.length + 2) comp codec block 0

/-- Serialize a chunk sequence the way the send loop does: for each chunk,
`struct.pack` of `(length << 1) + last` followed by the data. -/
def flattenChunks (prot : Protocol) :
    List (Nat × Nat × List Nat) → Except PyErr (List Nat)
  | [] => .ok []
  | (length, last, data) :: rest =>
    match packHeader prot (length * 2 + last) with
    | .error e => .error e
    | .ok flag =>
      match flattenChunks prot rest with
      | .error e => .error e
      | .ok tail => .ok (flag ++ data ++ tail)

/-- `_putblock_inet(block)`: the bytes put on the wire. -/
def _putblock_inet (prot : Protocol) (comp : Compression) (codec : Codec)
    (block : List Nat) : Option (Except PyErr (List Nat)) :=
  (putblockChunks comp codec block).map (flattenChunks prot)

/-- Round trip of the framing layer: encode `b` with `_putblock_inet`, then
decode the resulting wire bytes with `_getblock_inet` over a fresh socket. -/
def putThenGet (prot : Protocol) (comp : Compression) (codec : Codec)
    (b : List Nat) : Option (Except PyErr (List Nat)) :=
  match _putblock_inet prot comp codec b with
  | none => none
  | some (.error e) => some (.error e)
  | some (.ok wire) =>
    some ((_getblock_inet prot comp codec ⟨[], wire⟩).map Prod.fst)

/-- A concrete compressor standing in for `snappy`: a run of up to 65535
zero bytes is stored as a 3-byte record, anything else is stored verbatim
behind a tag byte.  Like Snappy it shrinks a run of zeros far below
`MAX_PACKAGE_LENGTH`; `zrle_roundtrip` checks the library contract. -/
def zrleCompress (l : List Nat) : List Nat :=
  if l.length < 65536 ∧ l.all (fun b => b = 0) then
    [0, l.length / 256, l.length % 256]
  else
    1 :: l

/-- Inverse of `zrleCompress`. -/
def zrleUncompress (l : List Nat) : List Nat :=
  match l with
  | [0, a, b] => List.replicate (a * 256 + b) 0
  | 1 :: rest => rest
  | _ => []

def zrleCodec : Codec := ⟨zrleCompress, zrleUncompress⟩

/-! ## Python string helpers -/

/-- ASCII whitespace, as Python's `strip` / no-argument `split` see it. -/
def isSpaceByte (b : Nat) : Bool :=
  b = 9 || b = 10 || b = 11 || b = 12 || b = 13 || b = 32

/-- Python `bytes.strip()`: trim ASCII whitespace from both ends. -/
def stripBytes (l : List Nat) : List Nat :=
  ((l.dropWhile isSpaceByte).reverse.dropWhile isSpaceByte).reverse

/-- Python `s.split(sep)` for a one-byte separator (keeps empty fields). -/
def splitOnByte (sep : Nat) (l : List Nat) : List (List Nat) :=
  l.splitOn sep

/-- Python `s.split()` with no argument: split on whitespace runs and drop
empty fields. -/
def splitWs (l : List Nat) : List (List Nat) :=
  (l.splitOnP isSpaceByte).filter (fun w => ¬w.isEmpty)

/-! ## Message sentinels -/

def MSG_PROMPT : List Nat := []
def MSG_MORE : List Nat := [1, 2, 10]
def MSG_INFO : List Nat := bts "#"
def MSG_ERROR : List Nat := bts "!"
def MSG_Q : List Nat := bts "&"
def MSG_QUPDATE : List Nat := bts "&2"
def MSG_HEADER : List Nat := bts "%"
def MSG_NEW_RESULT_HEADER : List Nat := bts "*"
def MSG_INITIAL_RESULT_CHUNK : List Nat := bts "+"
def MSG_RESULT_CHUNK : List Nat := bts "-"
def MSG_TUPLE : List Nat := bts "["
def MSG_REDIRECT : List Nat := bts "^"
def MSG_OK : List Nat := bts "=OK"

/-! ## Connection object and response dispatch -/

/-- The `Connection` fields the embedded operations read (`__init__` sets
`state = STATE_INIT`, `hostname = ""`, `protocol = prot9`,
`compression = none`, `endianness = get_byte_order()`). -/
structure Conn where
  state : Nat
  hostname : String
  username : String
  password : String
  database : String
  language : String
  protocol : Protocol
  compression : Compression
  endianness : Endianness
deriving DecidableEq, Repr

/-- What `read_response` produces when it does not raise: response bytes,
Python `None` (the `#` info branch falls through with no `return`), or the
marker that the server sent the more-input sentinel (the source recurses
into `cmd("")` there; `cmd` below performs that loop). -/
inductive RResult
  | bytes (b : List Nat)
  | pyNone
  | more
deriving DecidableEq, Repr

/-- Loop body of `_getblock_socket` (control language over a Unix socket):
single-byte reads until the peer closes.  Fuel recursion; every iteration
consumes a byte or a schedule entry. -/
def getblockSocketAux : Nat → Sock → List Nat × Sock
  | 0, s => ([], s)
  | fuel + 1, s =>
    let (x, s1) := recv s 1
    if x.length = 0 then
      ([], s1)
    else
      let (r, s2) := getblockSocketAux fuel s1
      (x ++ r, s2)

/-- `_getblock_socket()`: read until EOF and strip. -/
def _getblock_socket (s : Sock) : Except PyErr (List Nat × Sock) :=
  let (r, s1) := getblockSocketAux (s.sched.length + s.data.length + 1) s
  .ok (stripBytes r, s1)

/-- `_getblock()`: control over a Unix socket (falsy hostname) bypasses
block framing. -/
def _getblock (codec : Codec) (conn : Conn) (s : Sock) :
    Except PyErr (List Nat × Sock) :=
  if conn.language = "control" ∧ conn.hostname = "" then
    _getblock_socket s
  else
    _getblock_inet conn.protocol conn.compression codec s

/-- `read_response()`: read one block and classify it by its leading bytes;
server error strings are mapped through `handle_error` and raised with the
formatted message as the exception argument. -/
def read_response (codec : Codec) (conn : Conn) (s : Sock) :
    Except PyErr (RResult × Sock) :=
  match _getblock codec conn s with
  | .error e => .error e
  | .ok (response, s1) =>
    if response.length = 0 then
      .ok (.bytes [], s1)
    else if MSG_OK.isPrefixOf response then
      .ok (.bytes (stripBytes (response.drop 3)), s1)
    else if response = MSG_MORE then
      .ok (.more, s1)
    else
      let qupdateErr : Option PyErr :=
        if response.take 2 = MSG_QUPDATE then
          match (splitOnByte 10 response).find?
              (fun l => MSG_ERROR.isPrefixOf l) with
          | some line =>
            let (exc, msg) := handle_error (line.drop 1)
            some ⟨exc, [msg]⟩
          | none => none
        else
          none
      match qupdateErr with
      | some e => .error e
      | none =>
        if response.take 1 = MSG_Q ∨ response.take 1 = MSG_HEADER ∨
            response.take 1 = MSG_TUPLE ∨
            response.take 1 = MSG_NEW_RESULT_HEADER ∨
            response.take 1 = MSG_INITIAL_RESULT_CHUNK ∨
            response.take 1 = MSG_RESULT_CHUNK then
          .ok (.bytes response, s1)
        else if response.take 1 = MSG_ERROR then
          let (exc, msg) := handle_error (response.drop 1)
          .error ⟨exc, [msg]⟩
        else if response.take 1 = MSG_INFO then
          .ok (.pyNone, s1)
        else if conn.language = "control" ∧ conn.hostname = "" then
          if (bts "OK").isPrefixOf response then
            .ok (.bytes (stripBytes (response.drop 2)), s1)
          else
            .ok (.bytes response, s1)
        else
          .error ⟨.programmingE, [bts "unknown state: " ++ response]⟩

/-- `_putblock(block)`: control over a Unix socket writes the raw bytes
(the source calls an `encode` helper this module never defines; the raw
write is what the surrounding code expects), otherwise MAPI framing. -/
def _putblock (codec : Codec) (conn : Conn) (block : List Nat) :
    Option (Except PyErr (List Nat)) :=
  if conn.language = "control" ∧ conn.hostname = "" then
    some (.ok block)
  else
    _putblock_inet conn.protocol conn.compression codec block

/-- Loop of `cmd` / `read_response`: send the operation, read a response,
and on the more-input sentinel send an empty command and read again.
Returns the bytes put on the wire together with the outcome; `none` (never
reached from `cmd`) marks fuel exhaustion. -/
def cmdAux : Nat → Codec → Conn → Sock → List Nat →
    List Nat × Option (Except PyErr RResult)
  | 0, _, _, _, _ => ([], none)
  | fuel + 1, codec, conn, s, op =>
    match _putblock codec conn op with
    | none => ([], none)
    | some (.error e) => ([], some (.error e))
    | some (.ok wire) =>
      match read_response codec conn s with
      | .error e => (wire, some (.error e))
      | .ok (.more, s1) =>
        let (sent, r) := cmdAux fuel codec conn s1 (bts "")
        (wire ++ sent, r)
      | .ok (.bytes b, _) => (wire, some (.ok (.bytes b)))
      | .ok (.pyNone, _) => (wire, some (.ok .pyNone))

/-- `cmd(operation)`: when the connection state is not `STATE_READY` the
source executes `raise(ProgrammingError, "Not connected")` — the Python-2
tuple-raise form, which raises the tuple's first element and discards the
rest, so a `ProgrammingError` with an empty `args` tuple is raised before
anything is sent; otherwise the operation is framed, sent and the response
read. -/
def cmd (codec : Codec) (conn : Conn) (s : Sock) (operation : String) :
    List Nat × Option (Except PyErr RResult) :=
  if conn.state ≠ STATE_READY then
    ([], some (.error ⟨.programmingE, []⟩))
  else
    cmdAux (s.data.length + 1) codec conn s (bts operation)

/-! ## Login -/

/-- The outcome of `_login` when it does not raise. -/
inductive LoginResult
  /-- the server accepted (empty, `=OK` or `#info` prompt) -/
  | accepted
  /-- a `monetdb:` redirect: the source closes the socket and re-enters
  `connect` with the parsed target; no claim follows the reconnection, so
  the colon-split redirect token is returned as data -/
  | reconnect (redirect : List (List Nat))
deriving DecidableEq, Repr

/-- `_login(iteration)`, with the server abstracted to the sequence of
post-handshake prompt blocks it answers successive challenge exchanges
with (lines 170-176 of the source produce each prompt from the socket; the
classification and redirect handling of lines 178-217 is modelled
verbatim).  An exhausted prompt list is a closed connection. -/
def _login : List (List Nat) → Nat → Except PyErr LoginResult
  | [], _ => .error ⟨.operationalE, [bts "Server closed connection"]⟩
  | p :: rest, iter =>
    let prompt := stripBytes p
    if prompt.length = 0 then
      .ok .accepted
    else if prompt = MSG_OK then
      .ok .accepted
    else if MSG_INFO.isPrefixOf prompt then
      .ok .accepted
    else if MSG_ERROR.isPrefixOf prompt then
      .error ⟨.databaseE, [prompt.drop 1]⟩
    else if MSG_REDIRECT.isPrefixOf prompt then
      let redirect := splitOnByte 58 (((splitWs prompt).getD 0 []).drop 1)
      if redirect.length < 2 then
        .error ⟨.indexErrorE, []⟩
      else if redirect.getD 1 [] = bts "merovingian" then
        if iter ≤ 10 then
          _login rest (iter + 1)
        else
          .error ⟨.operationalE, [bts "maximal number of redirects reached (10)"]⟩
      else if redirect.getD 1 [] = bts "monetdb" then
        .ok (.reconnect redirect)
      else
        .error ⟨.programmingE, [bts "unknown redirect: " ++ prompt]⟩
    else
      .error ⟨.programmingE, [bts "unknown state: " ++ prompt]⟩

/-! ## Challenge response -/

/-- Python `str.split(sep)` for a one-character separator, on the character
list (keeps empty fields). -/
def pySplitChars (sep : Char) : List Char → List (List Char)
  | [] => [[]]
  | c :: rest =>
    let r := pySplitChars sep rest
    if c = sep then
      [] :: r
    else
      match r with
      | w :: ws => (c :: w) :: ws
      | [] => [[c]]

/-- Python `str.split(sep)` for a one-character separator. -/
def pySplit (sep : Char) (s : String) : List String :=
  (pySplitChars sep s.data).map (fun w => ⟨w⟩)

/-- The external `hashlib`: `new` yields the hex-digest function for a
named algorithm, or the `ValueError` message `hashlib` raises for an
unknown one (re-raised as `NotSupportedError(e.message)` by the source);
`sha1hex` / `md5hex` are `sha1` / `md5` followed by `hexdigest`. -/
structure HashLib where
  new : String → Except String (String → String)
  sha1hex : String → String
  md5hex : String → String

/-- `_challenge_response(challenge, blocksize)`: parse the colon-delimited
challenge, pre-hash the password with the server-named algorithm, pick the
salted hash (SHA1 before MD5), and build the colon-joined response,
upgrading to protocol 10 (and possibly Snappy) when offered. -/
def _challenge_response (hl : HashLib) (haveSnappy : Bool) (conn : Conn)
    (challenge : String) (blocksize : Nat) :
    Except PyErr (String × Protocol × Compression) :=
  match pySplit ':' challenge with
  | salt :: _identity :: protocolV :: hashes :: _endian :: rest =>
    if protocolV = "9" then
      match rest with
      | algo :: _ =>
        match hl.new algo with
        | .error emsg => .error ⟨.notSupportedE, [bts emsg]⟩
        | .ok f =>
          let password := f conn.password
          let h := pySplit ',' hashes
          let pwhashE : Except PyErr String :=
            if "SHA1" ∈ h then
              .ok ("{SHA1}" ++ hl.sha1hex (password ++ salt))
            else if "MD5" ∈ h then
              .ok ("{MD5}" ++ hl.md5hex (password ++ salt))
            else
              .error ⟨.notSupportedE,
                [bts ("Unsupported hash algorithms required for login: "
                  ++ hashes)]⟩
          match pwhashE with
          | .error e => .error e
          | .ok pwhash =>
            if "PROT10" ∈ h then
              let wantSnappy : Prop :=
                conn.hostname ≠ "localhost" ∧ "COMPRESSION_SNAPPY" ∈ h ∧
                  haveSnappy = true
              let comp := if wantSnappy then Compression.snappy
                else Compression.none
              let compTag := if wantSnappy then "COMPRESSION_SNAPPY"
                else "COMPRESSION_NONE"
              let etag := if conn.endianness = Endianness.little then "LIT"
                else "BIG"
              .ok (String.intercalate ":"
                  [etag, conn.username, pwhash, conn.language, conn.database,
                    "PROT10", compTag, toString blocksize] ++ ":",
                Protocol.prot10, comp)
            else
              .ok (String.intercalate ":"
                  ["BIG", conn.username, pwhash, conn.language, conn.database]
                  ++ ":",
                Protocol.prot9, Compression.none)
      | [] => .error ⟨.indexErrorE, []⟩
    else
      .error ⟨.notSupportedE, [bts "We only speak protocol v9"]⟩
  | _ => .error ⟨.valueErrorE, []⟩

/-- The comma-split `hashes` field of a colon-split challenge: the
password-hash algorithms and feature flags the server offers. -/
def offeredHashes (challenge : String) : List String :=
  pySplit ',' ((pySplit ':' challenge).getD 3 "")

/-- A ready SQL connection over TCP, for concrete statements. -/
def connSql : Conn :=
  ⟨STATE_READY, "h", "u", "p", "d", "sql", .prot9, .none, .little⟩

/-- A concrete `hashlib` stand-in for witnesses: tagged, injective digest
strings for the three algorithms the module can name. -/
def hashlibModel : HashLib where
  new := fun a =>
    if a = "SHA256" ∨ a = "SHA1" ∨ a = "MD5" then
      .ok (fun s => "H" ++ a ++ "." ++ s)
    else
      .error ("unsupported hash type " ++ a)
  sha1hex := fun s => "sha1." ++ s
  md5hex := fun s => "md5." ++ s

/-! ## Theorems -/

/-- `zrleCompress` turns the 8190-byte zero run into a 3-byte record, the
same drastic shrink Snappy performs on a zero run. -/
theorem zrleCompress_zeros :
    zrleCompress (List.replicate 8190 (0:Nat)) = [0, 31, 254] := by
  unfold zrleCompress
  rw [if_pos]
  · rw [List.length_replicate]
  · refine ⟨by rw [List.length_replicate]; norm_num, ?_⟩
    simp only [List.all_eq_true, List.mem_replicate, decide_eq_true_eq]
    intro b hb
    exact hb.2

/-- Under Snappy, `_putblock_inet` on 8191 zero bytes emits a single chunk
marked last: the first slice compresses below `MAX_PACKAGE_LENGTH`, `last`
is set from the compressed length, and `pos` advances by 3, so the loop
stops with the 8191st byte never framed. -/
theorem putblockChunks_zeros :
    putblockChunks Compression.snappy zrleCodec (List.replicate 8191 0) =
      some [(3, 1, [0, 31, 254])] := by
  unfold putblockChunks
  rw [show (List.replicate 8191 (0:Nat)).length + 2 = 8192 + 1 by
    rw [List.length_replicate]]
  rw [putblockInetAux]
  rw [List.drop_zero]
  rw [List.take_replicate]
  rw [show MAX_PACKAGE_LENGTH ⊓ 8191 = 8190 by unfold MAX_PACKAGE_LENGTH; omega]
  rw [show zrleCodec.compress = zrleCompress from rfl]
  rw [show (if Compression.snappy = Compression.snappy then
      zrleCompress (List.replicate 8190 (0:Nat))
      else List.replicate 8190 0) = [0, 31, 254] from by
    rw [if_pos rfl]; exact zrleCompress_zeros]
  rfl

/-- Decompressing the 3-byte record recovers the 8190-byte zero run. -/
theorem zrleUncompress_record :
    zrleUncompress [0, 31, 254] = List.replicate 8190 (0:Nat) := by
  show List.replicate (31 * 256 + 254) (0:Nat) = List.replicate 8190 0
  congr 1

/-- The stand-in compressor satisfies the compression-library contract. -/
theorem zrle_roundtrip (l : List Nat) :
    zrleUncompress (zrleCompress l) = l := by
  unfold zrleCompress
  split
  next h =>
    obtain ⟨hlen, hzero⟩ := h
    have hdiv : l.length / 256 * 256 + l.length % 256 = l.length := by omega
    unfold zrleUncompress
    simp only []
    rw [hdiv]
    symm
    rw [List.eq_replicate_iff]
    refine ⟨rfl, ?_⟩
    intro b hb
    simpa using List.all_eq_true.mp hzero b hb
  next h =>
    rfl

/-- **C1** (the code violates the claim): decoding what `_putblock_inet`
wrote under Snappy for the 8191-byte zero payload yields only the first
8190 bytes, not the payload: `pos` advances by the compressed length (3),
so the loop stops after one chunk with the final byte never framed.  Any
compressor that maps the 8190-byte zero run below `MAX_PACKAGE_LENGTH`
(real Snappy does) produces this. -/
theorem claimC1_snappy_roundtrip_fails :
    putThenGet Protocol.prot9 Compression.snappy zrleCodec
      (List.replicate 8191 0) = some (.ok (List.replicate 8190 0)) ∧
    (some (Except.ok (List.replicate 8190 0)) :
        Option (Except PyErr (List Nat))) ≠
      some (.ok (List.replicate 8191 0)) := by
  constructor
  · unfold putThenGet _putblock_inet
    rw [putblockChunks_zeros]
    show some (Except.map Prod.fst (_getblock_inet Protocol.prot9
        Compression.snappy zrleCodec ⟨[], [7, 0, 0, 31, 254]⟩)) = _
    rw [show _getblock_inet Protocol.prot9 Compression.snappy zrleCodec
        ⟨[], [7, 0, 0, 31, 254]⟩ =
        Except.ok (zrleUncompress [0, 31, 254], (⟨[], []⟩ : Sock)) from rfl]
    rw [zrleUncompress_record]
    rfl
  · intro h
    have h1 : List.replicate 8190 (0:Nat) = List.replicate 8191 0 := by
      injection h with h2
      injection h2
    have h3 := congrArg List.length h1
    rw [List.length_replicate, List.length_replicate] at h3
    omega

/-- **C2** (the code violates the claim): when the server issues 11
consecutive merovingian redirects and then accepts, `_login` follows all
11 and succeeds; the `Operational("maximal number of redirects reached
(10)")` failure only happens at a 12th consecutive redirect, because
`iteration <= 10` with the count starting at 0 allows 11 restarts. -/
theorem claimC2_redirect_bound_eval :
    _login (List.replicate 11 (bts "^mapi:merovingian://proxy") ++ [[]]) 0 =
      .ok .accepted ∧
    _login (List.replicate 12 (bts "^mapi:merovingian://proxy") ++ [[]]) 0 =
      .error ⟨.operationalE,
        [bts "maximal number of redirects reached (10)"]⟩ :=
  ⟨rfl, rfl⟩

/-- **C3** counterexample: a `&2` block containing the line `!40000!`
(the ErrorMap key with nothing after it) raises `OperationalError("40000!")`,
not an Integrity error: `handle_error` requires strictly more than six
characters after the `!` before it consults the table. -/
theorem claimC3_counterexample :
    read_response zrleCodec connSql ⟨[], [21, 0] ++ bts "&2\n!40000!"⟩ =
      .error ⟨.operationalE, [bts "40000!"]⟩ ∧
    ErrKind.operationalE ≠ ErrKind.integrityE :=
  ⟨rfl, by decide⟩

/-- **C6** (the code violates the claim): `cmd` on a non-READY connection
sends nothing and raises, but the Python-2 statement
`raise(ProgrammingError, "Not connected")` raises the tuple's first
element bare, so the `ProgrammingError` carries an empty `args` tuple
rather than the message "Not connected" (under Python 3 the statement is a
`TypeError`). -/
theorem claimC6_not_connected_eval :
    cmd zrleCodec ⟨STATE_INIT, "h", "u", "p", "d", "sql", .prot9, .none,
      .little⟩ ⟨[], []⟩ "select 1" =
      ([], some (.error ⟨.programmingE, []⟩)) ∧
    (⟨.programmingE, []⟩ : PyErr) ≠ ⟨.programmingE, [bts "Not connected"]⟩ :=
  ⟨rfl, by decide⟩

/-- **C4**: for the challenge `abc:server:9:SHA1:BIG:SHA256` with password
"p", username "u", language "sql", database "d", the response is exactly
`BIG:u:{SHA1}h:sql:d:` with `h = sha1hex (sha256hexdigest "p" ++ "abc")`,
independent of host, endianness, blocksize and current protocol state;
determinism over the fixed inputs is definitional, the embedded
`_challenge_response` being a pure function of them. -/
theorem claimC4_v9_sha1_response (hl : HashLib) (hs : Bool) (st : Nat)
    (host : String) (pr : Protocol) (co : Compression) (endian : Endianness)
    (blocksize : Nat) (s256 : String → String)
    (hnew : hl.new "SHA256" = .ok s256) :
    _challenge_response hl hs ⟨st, host, "u", "p", "d", "sql", pr, co, endian⟩
      "abc:server:9:SHA1:BIG:SHA256" blocksize =
      .ok ("BIG:u:{SHA1}" ++ hl.sha1hex (s256 "p" ++ "abc") ++ ":sql:d:",
        .prot9, .none) := by
  unfold _challenge_response
  rw [show pySplit ':' "abc:server:9:SHA1:BIG:SHA256" =
      ["abc", "server", "9", "SHA1", "BIG", "SHA256"] from rfl]
  dsimp only
  rw [if_pos rfl, hnew]
  dsimp only
  rw [show pySplit ',' "SHA1" = ["SHA1"] from rfl]
  rw [if_pos (by decide : ("SHA1" : String) ∈ ["SHA1"])]
  dsimp only
  rw [if_neg (by decide : ¬("PROT10" : String) ∈ ["SHA1"])]
  congr 1
  apply Prod.ext
  · apply String.ext
    simp [String.data_append, List.append_assoc, String.intercalate,
      String.intercalate.go]
  · rfl

/-- Witness for `claimC4_v9_sha1_response` at the model `hashlib`. -/
theorem claimC4_v9_sha1_response_witness :
    _challenge_response hashlibModel false
      ⟨STATE_READY, "h", "u", "p", "d", "sql", Protocol.prot9,
        Compression.none, Endianness.little⟩
      "abc:server:9:SHA1:BIG:SHA256" 1000000 =
      .ok ("BIG:u:{SHA1}sha1.HSHA256.pabc:sql:d:", .prot9, .none) := by
  have h := claimC4_v9_sha1_response hashlibModel false STATE_READY "h"
    Protocol.prot9 Compression.none Endianness.little 1000000
    (fun s => "H" ++ "SHA256" ++ "." ++ s) rfl
  exact h.trans (by rfl)

/-- **C7**: a challenge whose protocol field is not "9" fails with
`NotSupported("We only speak protocol v9")`; a protocol-9 challenge naming
an unknown pre-hash algorithm fails with `NotSupported` (carrying the
`hashlib` `ValueError` message, per `raise NotSupportedError(e.message)`). -/
theorem claimC7_unsupported :
    (∀ (hl : HashLib) (hs : Bool) (conn : Conn) (challenge : String)
        (blocksize : Nat) (salt idy pv hashes edn : String)
        (rest : List String),
        pySplit ':' challenge = salt :: idy :: pv :: hashes :: edn :: rest →
        pv ≠ "9" →
        _challenge_response hl hs conn challenge blocksize =
          .error ⟨.notSupportedE, [bts "We only speak protocol v9"]⟩) ∧
    (∀ (hl : HashLib) (hs : Bool) (conn : Conn) (challenge : String)
        (blocksize : Nat) (salt idy hashes edn algo : String)
        (rest : List String) (emsg : String),
        pySplit ':' challenge =
          salt :: idy :: "9" :: hashes :: edn :: algo :: rest →
        hl.new algo = .error emsg →
        _challenge_response hl hs conn challenge blocksize =
          .error ⟨.notSupportedE, [bts emsg]⟩) := by
  constructor
  · intro hl hs conn challenge blocksize salt idy pv hashes edn rest hsplit hpv
    unfold _challenge_response
    rw [hsplit]
    dsimp only
    rw [if_neg hpv]
  · intro hl hs conn challenge blocksize salt idy hashes edn algo rest emsg
      hsplit hnew
    unfold _challenge_response
    rw [hsplit]
    dsimp only
    rw [if_pos rfl, hnew]

/-- Witness for `claimC7_unsupported`: protocol "8" is refused, and the
unknown algorithm "FOO" is refused with the `hashlib` message. -/
theorem claimC7_unsupported_witness :
    _challenge_response hashlibModel false connSql
      "abc:server:8:SHA1:BIG:SHA256" 1 =
      .error ⟨.notSupportedE, [bts "We only speak protocol v9"]⟩ ∧
    _challenge_response hashlibModel false connSql
      "abc:server:9:SHA1:BIG:FOO" 1 =
      .error ⟨.notSupportedE, [bts "unsupported hash type FOO"]⟩ :=
  ⟨claimC7_unsupported.1 hashlibModel false connSql _ 1 "abc" "server" "8"
      "SHA1" "BIG" ["SHA256"] rfl (by decide),
    claimC7_unsupported.2 hashlibModel false connSql _ 1 "abc" "server"
      "SHA1" "BIG" "FOO" [] "unsupported hash type FOO" rfl rfl⟩

/-- **C3** (amended): when a `&2` response's first line beginning with `!`
is `!40000!` followed by a nonempty text `t`, `read_response` raises
`IntegrityError(t)`; the text after the six-character code is the
exception's argument. -/
theorem claimC3_qupdate_integrity (codec : Codec) (conn : Conn) (s : Sock)
    (resp : List Nat) (rest : Sock) (t : List Nat)
    (hget : _getblock codec conn s = .ok (resp, rest))
    (hq : resp.take 2 = MSG_QUPDATE)
    (hline : (splitOnByte 10 resp).find? (fun l => MSG_ERROR.isPrefixOf l) =
      some (MSG_ERROR ++ (bts "40000!" ++ t)))
    (ht : t ≠ []) :
    read_response codec conn s = .error ⟨.integrityE, [t]⟩ := by
  obtain ⟨resp', hresp⟩ : ∃ l', resp = 38 :: 50 :: l' := by
    rw [show MSG_QUPDATE = [38, 50] from rfl] at hq
    match resp, hq with
    | a :: b :: l', hq =>
      simp only [List.take, List.cons.injEq] at hq
      exact ⟨l', by rw [hq.1, hq.2.1]⟩
  subst hresp
  unfold read_response
  rw [hget]
  dsimp only
  rw [if_neg (by simp : ¬((38 :: 50 :: resp').length = 0))]
  rw [if_neg (by simp [List.isPrefixOf] :
    ¬(MSG_OK.isPrefixOf (38 :: 50 :: resp') = true))]
  rw [if_neg (by rw [show MSG_MORE = [1, 2, 10] from rfl]; simp :
    ¬(38 :: 50 :: resp' = MSG_MORE))]
  rw [if_pos hq]
  rw [hline]
  dsimp only
  unfold handle_error
  rw [if_pos (by
    rw [show MSG_ERROR ++ (bts "40000!" ++ t) = 33 :: (bts "40000!" ++ t)
      from rfl]
    simp only [List.drop_succ_cons, List.drop_zero, List.length_append]
    have := List.length_pos.mpr ht
    rw [show (bts "40000!").length = 6 from rfl]
    omega)]
  rw [show (MSG_ERROR ++ (bts "40000!" ++ t)).drop 1 = bts "40000!" ++ t
    from rfl]
  rw [show (6 : Nat) = (bts "40000!").length from rfl]
  rw [List.take_left, List.drop_left]
  rfl

/-- Witness for `claimC3_qupdate_integrity`: the `&2` block whose 3rd line
is `!40000!FK violated` raises `Integrity("FK violated")`. -/
theorem claimC3_qupdate_integrity_witness :
    read_response zrleCodec connSql
      ⟨[], [47, 0] ++ bts "&2\nx\n!40000!FK violated"⟩ =
      .error ⟨.integrityE, [bts "FK violated"]⟩ :=
  claimC3_qupdate_integrity zrleCodec connSql _
    (bts "&2\nx\n!40000!FK violated") ⟨[], []⟩ (bts "FK violated")
    rfl rfl rfl (by decide)

set_option maxHeartbeats 1000000 in
/-- **C8**: a successful handshake selects Snappy exactly when `PROT10` is
offered, the hostname is not "localhost", `COMPRESSION_SNAPPY` is offered
and a Snappy implementation is available; in every other case compression
is None (lz4 is never selected), and any non-None compression implies
protocol v10. -/
theorem claimC8_snappy_conditions (hl : HashLib) (hs : Bool) (conn : Conn)
    (challenge : String) (blocksize : Nat) (r : String) (p : Protocol)
    (c : Compression)
    (hok : _challenge_response hl hs conn challenge blocksize = .ok (r, p, c)) :
    (c = Compression.snappy ↔
      ("PROT10" ∈ offeredHashes challenge ∧ conn.hostname ≠ "localhost" ∧
        "COMPRESSION_SNAPPY" ∈ offeredHashes challenge ∧ hs = true)) ∧
    (c ≠ Compression.snappy → c = Compression.none) ∧
    (c ≠ Compression.none → p = Protocol.prot10) := by
  unfold _challenge_response at hok
  split at hok
  case h_2 => exact Except.noConfusion hok
  case h_1 salt idy pv hashes edn rest heq =>
    rw [show offeredHashes challenge = pySplit ',' hashes from by
      unfold offeredHashes
      rw [heq]
      rfl]
    dsimp only at hok
    repeat' split at hok
    all_goals try exact Except.noConfusion hok
    all_goals injection hok with h1
    all_goals injection h1 with hr h2
    all_goals injection h2 with hp hc
    all_goals subst hp
    all_goals subst hc
    all_goals refine ⟨?_, ?_, ?_⟩
    all_goals try exact fun hcc => absurd rfl hcc
    all_goals try exact fun hcc => rfl
    all_goals try exact iff_of_true rfl (by constructor <;> assumption)
    all_goals try exact iff_of_false (by simp) (fun hws => absurd hws.2 (by assumption))
    all_goals try exact iff_of_false (by simp) (fun hws => absurd hws.1 (by assumption))

/-- Witness for `claimC8_snappy_conditions`: the V10 challenge offering
Snappy, reaching a non-localhost host with Snappy available. -/
theorem claimC8_snappy_conditions_witness :
    (Compression.snappy = Compression.snappy ↔
      ("PROT10" ∈ offeredHashes "s:x:9:SHA1,PROT10,COMPRESSION_SNAPPY:LIT:SHA1" ∧
        connSql.hostname ≠ "localhost" ∧
        "COMPRESSION_SNAPPY" ∈
          offeredHashes "s:x:9:SHA1,PROT10,COMPRESSION_SNAPPY:LIT:SHA1" ∧
        true = true)) ∧
    (Compression.snappy ≠ Compression.snappy →
      Compression.snappy = Compression.none) ∧
    (Compression.snappy ≠ Compression.none →
      Protocol.prot10 = Protocol.prot10) :=
  claimC8_snappy_conditions hashlibModel true connSql
    "s:x:9:SHA1,PROT10,COMPRESSION_SNAPPY:LIT:SHA1" 1000000
    "LIT:u:{SHA1}sha1.HSHA1.ps:sql:d:PROT10:COMPRESSION_SNAPPY:1000000:"
    Protocol.prot10 Compression.snappy rfl

/-- Joining the five base response fields puts the literal `BIG` and a
colon in front. -/
theorem intercalate_big_head (x1 x2 x3 x4 : String) :
    String.intercalate ":" ["BIG", x1, x2, x3, x4] ++ ":" =
      "BIG:" ++ (x1 ++ ":" ++ x2 ++ ":" ++ x3 ++ ":" ++ x4 ++ ":") := by
  apply String.ext
  simp [String.intercalate, String.intercalate.go, String.data_append,
    List.append_assoc]

set_option maxHeartbeats 1000000 in
/-- **C10**: when the server does not offer `PROT10`, the response built by
`_challenge_response` starts with the literal field `BIG:` and is entirely
independent of the connection's endianness; the endianness can only reach
the response through the `PROT10` branch. -/
theorem claimC10_big_endian_tag :
    (∀ (hl : HashLib) (hs : Bool) (conn : Conn) (challenge : String)
        (blocksize : Nat) (r : String) (p : Protocol) (c : Compression),
        _challenge_response hl hs conn challenge blocksize = .ok (r, p, c) →
        "PROT10" ∉ offeredHashes challenge →
        ∃ t, r = "BIG:" ++ t) ∧
    (∀ (hl : HashLib) (hs : Bool) (conn : Conn) (challenge : String)
        (blocksize : Nat) (e1 e2 : Endianness),
        "PROT10" ∉ offeredHashes challenge →
        _challenge_response hl hs { conn with endianness := e1 } challenge
          blocksize =
        _challenge_response hl hs { conn with endianness := e2 } challenge
          blocksize) := by
  constructor
  · intro hl hs conn challenge blocksize r p c hok hnp
    unfold _challenge_response at hok
    split at hok
    case h_2 => exact Except.noConfusion hok
    case h_1 salt idy pv hashes edn rest heq =>
      rw [show offeredHashes challenge = pySplit ',' hashes from by
        unfold offeredHashes
        rw [heq]
        rfl] at hnp
      dsimp only at hok
      repeat' split at hok
      all_goals try exact Except.noConfusion hok
      all_goals injection hok with h1
      all_goals injection h1 with hr h2
      all_goals exact ⟨_, by rw [← hr, intercalate_big_head]⟩
  · intro hl hs conn challenge blocksize e1 e2 hnp
    unfold _challenge_response
    dsimp only
    split
    case h_2 => rfl
    case h_1 salt idy pv hashes edn rest heq =>
      rw [show offeredHashes challenge = pySplit ',' hashes from by
        unfold offeredHashes
        rw [heq]
        rfl] at hnp
      repeat' split
      all_goals rfl

/-- Witness for `claimC10_big_endian_tag` on the S1 challenge, which does
not offer `PROT10`. -/
theorem claimC10_big_endian_tag_witness :
    (∃ t, "BIG:u:{SHA1}sha1.HSHA256.pabc:sql:d:" = "BIG:" ++ t) ∧
    _challenge_response hashlibModel false
        { connSql with endianness := Endianness.little }
        "abc:server:9:SHA1:BIG:SHA256" 5 =
      _challenge_response hashlibModel false
        { connSql with endianness := Endianness.big }
        "abc:server:9:SHA1:BIG:SHA256" 5 :=
  ⟨claimC10_big_endian_tag.1 hashlibModel false connSql
      "abc:server:9:SHA1:BIG:SHA256" 5 _ Protocol.prot9 Compression.none
      rfl (by decide),
    claimC10_big_endian_tag.2 hashlibModel false connSql
      "abc:server:9:SHA1:BIG:SHA256" 5 Endianness.little Endianness.big
      (by decide)⟩

/-- The send loop is invariant under shifting: framing `block` from
position `pos` frames the suffix `block.drop pos` from position 0 (the
slice and the `pos` advance both act on the dropped prefix). -/
theorem putblockInetAux_shift (fuel : Nat) (comp : Compression)
    (codec : Codec) :
    ∀ (block : List Nat) (pos : Nat),
      putblockInetAux fuel comp codec block pos =
        putblockInetAux fuel comp codec (block.drop pos) 0 := by
  induction fuel with
  | zero => intro block pos; rfl
  | succ f ih =>
    intro block pos
    simp only [putblockInetAux, List.drop_zero]
    rw [ih block, ih (block.drop pos)]
    rw [List.drop_drop, Nat.zero_add]

/-- Without compression, a payload of exactly `k` full packages is framed
as `k` chunks of length `MAX_PACKAGE_LENGTH` with last flag 0 followed by
one empty chunk with last flag 1. -/
theorem putblockChunks_none_aux (codec : Codec) :
    ∀ (k : Nat) (B : List Nat) (fuel : Nat),
      B.length = k * MAX_PACKAGE_LENGTH → k < fuel →
      putblockInetAux fuel Compression.none codec B 0 =
        some ((List.range k).map (fun i =>
            (MAX_PACKAGE_LENGTH, 0,
              (B.drop (MAX_PACKAGE_LENGTH * i)).take MAX_PACKAGE_LENGTH)) ++
          [(0, 1, [])]) := by
  intro k
  induction k with
  | zero =>
    intro B fuel hlen hfuel
    have hB : B = [] := List.length_eq_zero.mp (by simpa using hlen)
    subst hB
    match fuel, hfuel with
    | f + 1, _ =>
      simp only [putblockInetAux, List.drop_zero, List.take_nil,
        List.range_zero, List.map_nil, List.nil_append]
      rw [if_neg (by decide : ¬(Compression.none = Compression.snappy))]
      rw [if_pos (by unfold MAX_PACKAGE_LENGTH; omega :
        ([] : List Nat).length < MAX_PACKAGE_LENGTH)]
      rfl
  | succ k ih =>
    intro B fuel hlen hfuel
    have hMpos : 0 < MAX_PACKAGE_LENGTH := by unfold MAX_PACKAGE_LENGTH; omega
    have hBlen : MAX_PACKAGE_LENGTH ≤ B.length := by
      rw [hlen]
      exact Nat.le_mul_of_pos_left MAX_PACKAGE_LENGTH (Nat.succ_pos k)
    match fuel, hfuel with
    | f + 1, hfuel =>
      simp only [putblockInetAux, List.drop_zero]
      rw [if_neg (by decide : ¬(Compression.none = Compression.snappy))]
      have hlen1 : (B.take MAX_PACKAGE_LENGTH).length = MAX_PACKAGE_LENGTH := by
        rw [List.length_take]
        omega
      rw [hlen1]
      rw [if_neg (lt_irrefl MAX_PACKAGE_LENGTH)]
      rw [if_neg (by decide : ¬(0 : Nat) = 1)]
      rw [Nat.zero_add]
      rw [putblockInetAux_shift f]
      rw [ih (B.drop MAX_PACKAGE_LENGTH) f
        (by rw [List.length_drop, hlen]; ring_nf; omega)
        (Nat.lt_of_succ_lt_succ hfuel)]
      dsimp only
      congr 1
      rw [List.range_succ_eq_map]
      rw [List.map_cons, List.cons_append]
      congr 1
      rw [List.map_map]
      congr 1
      apply List.map_congr_left
      intro i hi
      simp only [Function.comp_apply]
      rw [List.drop_drop]
      congr 2
      rw [Nat.mul_succ, Nat.add_comm]

/-- **C5**: with no compression, `_putblock_inet` on a payload of length
`k * MAX_PACKAGE_LENGTH` emits exactly `k` full 8190-byte chunks with last
flag 0 followed by one zero-length chunk with last flag 1; at `k = 0` the
empty payload gives exactly one chunk of length 0 with last flag 1. -/
theorem claimC5_chunk_boundary (codec : Codec) (B : List Nat) (k : Nat)
    (hlen : B.length = k * MAX_PACKAGE_LENGTH) :
    putblockChunks Compression.none codec B =
      some ((List.range k).map (fun i =>
          (MAX_PACKAGE_LENGTH, 0,
            (B.drop (MAX_PACKAGE_LENGTH * i)).take MAX_PACKAGE_LENGTH)) ++
        [(0, 1, [])]) := by
  unfold putblockChunks
  refine putblockChunks_none_aux codec k B (B.length + 2) hlen ?_
  have hM : MAX_PACKAGE_LENGTH = 8190 := rfl
  rw [hM] at hlen
  omega

/-- Witness for `claimC5_chunk_boundary` at `k = 0`: the empty payload is
framed as one zero-length chunk with the last flag set. -/
theorem claimC5_chunk_boundary_witness :
    putblockChunks Compression.none zrleCodec [] = some [(0, 1, [])] := by
  have h := claimC5_chunk_boundary zrleCodec [] 0 rfl
  simpa using h

/-- Reading zero bytes returns immediately (the `while count > 0` loop is
skipped). -/
theorem getbytesAux_zero (fuel : Nat) (s : Sock) :
    getbytesAux fuel s 0 = .ok ([], s) := by
  cases fuel with
  | zero => rfl
  | succ f => rfl

/-- When at least `count` bytes remain and every scheduled delivery is
nonempty, `_getbytes` returns exactly the first `count` bytes, in order,
leaving the rest of the stream. -/
theorem getbytesAux_ok :
    ∀ (fuel count : Nat) (sched data : List Nat),
      count ≤ fuel → (∀ x ∈ sched, 0 < x) → count ≤ data.length →
      ∃ sched2, getbytesAux fuel ⟨sched, data⟩ count =
        .ok (data.take count, ⟨sched2, data.drop count⟩) := by
  intro fuel
  induction fuel with
  | zero =>
    intro count sched data hcf hsched hle
    have hc : count = 0 := Nat.le_zero.mp hcf
    subst hc
    exact ⟨sched, rfl⟩
  | succ f ih =>
    intro count sched data hcf hsched hle
    match count, hcf, hle with
    | 0, _, _ => exact ⟨sched, rfl⟩
    | c + 1, hcf, hle =>
      cases sched with
      | nil =>
        simp only [getbytesAux, recv]
        have hrl : (data.take (c + 1)).length = c + 1 := by
          rw [List.length_take]
          omega
        rw [hrl]
        rw [if_neg (by omega : ¬(c + 1 = 0))]
        rw [Nat.sub_self]
        rw [getbytesAux_zero]
        dsimp only
        refine ⟨[], ?_⟩
        rw [List.append_nil]
      | cons k sched2 =>
        simp only [getbytesAux, recv]
        have hk : 0 < k := hsched k (List.mem_cons_self k sched2)
        have hm1 : 1 ≤ min k (c + 1) := by omega
        have hmle : min k (c + 1) ≤ c + 1 := Nat.min_le_right k (c + 1)
        have hrl : (data.take (min k (c + 1))).length = min k (c + 1) := by
          rw [List.length_take]
          omega
        rw [hrl]
        rw [if_neg (by omega : ¬(min k (c + 1) = 0))]
        obtain ⟨sched3, hrec⟩ := ih (c + 1 - min k (c + 1)) sched2
          (data.drop (min k (c + 1)))
          (by omega)
          (fun x hx => hsched x (List.mem_cons_of_mem k hx))
          (by rw [List.length_drop]; omega)
        rw [hrec]
        dsimp only
        refine ⟨sched3, ?_⟩
        have h1 : data.take (min k (c + 1)) ++
            (data.drop (min k (c + 1))).take (c + 1 - min k (c + 1)) =
            data.take (c + 1) := by
          rw [← List.take_add]
          congr 1
          omega
        have h2 : (data.drop (min k (c + 1))).drop (c + 1 - min k (c + 1)) =
            data.drop (c + 1) := by
          rw [List.drop_drop]
          congr 1
          omega
        rw [h1, h2]

/-- When the stream holds fewer than `count` bytes, the loop eventually
receives an empty delivery and raises
`OperationalError("Server closed connection")`. -/
theorem getbytesAux_closed :
    ∀ (fuel count : Nat) (sched data : List Nat),
      count ≤ fuel → (∀ x ∈ sched, 0 < x) → data.length < count →
      getbytesAux fuel ⟨sched, data⟩ count =
        .error ⟨.operationalE, [bts "Server closed connection"]⟩ := by
  intro fuel
  induction fuel with
  | zero =>
    intro count sched data hcf hsched hlt
    have hc : count = 0 := Nat.le_zero.mp hcf
    omega
  | succ f ih =>
    intro count sched data hcf hsched hlt
    match count, hcf, hlt with
    | c + 1, hcf, hlt =>
      cases sched with
      | nil =>
        simp only [getbytesAux, recv]
        by_cases hd : data.length = 0
        · rw [if_pos (by rw [List.length_take]; omega)]
        · have hrl : (data.take (c + 1)).length = data.length := by
            rw [List.length_take]
            omega
          rw [hrl]
          rw [if_neg hd]
          rw [ih (c + 1 - data.length) [] (data.drop (c + 1))
            (by omega) (by intro x hx; cases hx)
            (by rw [List.length_drop]; omega)]
      | cons k sched2 =>
        simp only [getbytesAux, recv]
        have hk : 0 < k := hsched k (List.mem_cons_self k sched2)
        have hm1 : 1 ≤ min k (c + 1) := by omega
        by_cases hd : data.length = 0
        · rw [if_pos (by rw [List.length_take]; omega)]
        · have hrl : (data.take (min k (c + 1))).length =
              min (min k (c + 1)) data.length := by
            rw [List.length_take]
          rw [hrl]
          rw [if_neg (by omega : ¬(min (min k (c + 1)) data.length = 0))]
          rw [ih (c + 1 - min (min k (c + 1)) data.length) sched2
            (data.drop (min k (c + 1)))
            (by omega)
            (fun x hx => hsched x (List.mem_cons_of_mem k hx))
            (by rw [List.length_drop]; omega)]

/-- **C9**: for any delivery schedule of positive-size partial reads,
`_getbytes(n)` returns exactly the first `n` bytes of the stream,
reassembled in order, and raises
`Operational("Server closed connection")` when the peer's stream is
exhausted (an empty `recv`) before `n` bytes have been received. -/
theorem claimC9_getbytes_exact (sched data : List Nat) (n : Nat)
    (hsched : ∀ x ∈ sched, 0 < x) :
    (n ≤ data.length →
      ∃ sched2, _getbytes ⟨sched, data⟩ n =
        .ok (data.take n, ⟨sched2, data.drop n⟩)) ∧
    (data.length < n →
      _getbytes ⟨sched, data⟩ n =
        .error ⟨.operationalE, [bts "Server closed connection"]⟩) :=
  ⟨fun h => getbytesAux_ok n n sched data le_rfl hsched h,
    fun h => getbytesAux_closed n n sched data le_rfl hsched h⟩

/-- Witness for `claimC9_getbytes_exact`: a 4-byte read delivered as a
2-byte then a 3-byte-capped partial read. -/
theorem claimC9_getbytes_exact_witness :
    (∃ sched2, _getbytes ⟨[2, 3], [5, 6, 7, 8]⟩ 4 =
      .ok ([5, 6, 7, 8], ⟨sched2, []⟩)) ∧
    _getbytes ⟨[2, 3], [5, 6, 7]⟩ 4 =
      .error ⟨.operationalE, [bts "Server closed connection"]⟩ :=
  ⟨(claimC9_getbytes_exact [2, 3] [5, 6, 7, 8] 4 (by decide)).1 (by decide),
    (claimC9_getbytes_exact [2, 3] [5, 6, 7] 4 (by decide)).2 (by decide)⟩
